import Mathlib

/-!
Shallow embedding of `2d_percolation.py`.

The source has two functions:

* `is_percolating(f, axis, periodic=False)` — tests whether a binary 2D
  numpy mask spans the grid along `axis`, optionally also touching itself
  across the wrap boundary;
* `percolation_threshold(landscape, axis, conv, periodic=False)` — a
  bisection search on the threshold height, using `scipy.ndimage.label`
  (4-connectivity connected-component labeling) to enumerate the clusters
  of cells at or below the midpoint.

Grids of shape (R+1) x (C+1) are modelled as functions
`Fin (R+1) → Fin (C+1) → α` (so both dimensions are nonempty, as numpy
requires for the boundary slices and for `max`/`min`).  Real heights are
modelled by `ℚ`.  Numpy/Python errors are modelled by an `Except` monad:
`np.any` with a reduction axis outside {-2, -1, 0, 1} raises an axis
error for a 2-D array, and the `match` statement in the source raises
`ValueError("axis should be 0 (x) or 1 (y)")` on its default case.
-/

/-- Errors that the Python code can raise: numpy's axis error (invalid
reduction axis for `np.any`) and a Python `ValueError` with a message. -/
inductive NpError where
  | axis_error : NpError
  | value_error : String → NpError
deriving DecidableEq, Repr

deriving instance DecidableEq for Except

/-- A 2-D array of shape (R+1) x (C+1), row index first, as in numpy. -/
def Grid (R C : ℕ) (α : Type) : Type := Fin (R + 1) → Fin (C + 1) → α

/-- `np.any(f, axis=0)` on a 2-D boolean array: OR-reduction over the row
index, one entry per column. -/
def anyAxis0 {R C : ℕ} (f : Grid R C Bool) : List Bool :=
  (List.finRange (C + 1)).map (fun c => decide (∃ r, f r c = true))

/-- `np.any(f, axis=1)` on a 2-D boolean array: OR-reduction over the
column index, one entry per row. -/
def anyAxis1 {R C : ℕ} (f : Grid R C Bool) : List Bool :=
  (List.finRange (R + 1)).map (fun r => decide (∃ c, f r c = true))

/-- `np.any(f, axis=axis)` for a 2-D array: axes 0 and -2 reduce over
rows, axes 1 and -1 reduce over columns, anything else raises numpy's
axis error. -/
def npAnyAxis {R C : ℕ} (f : Grid R C Bool) (axis : ℤ) :
    Except NpError (List Bool) :=
  if axis = 0 ∨ axis = -2 then .ok (anyAxis0 f)
  else if axis = 1 ∨ axis = -1 then .ok (anyAxis1 f)
  else .error .axis_error

/-- `is_percolating(f, axis, periodic)` from the source, line for line:

    if np.all(np.any(f, axis=axis)):
        if periodic:
            match axis:
                case 0:
                    if not np.any(np.bitwise_and(f[:,0], f[:,-1])):
                        return False
                case 1:
                    if not np.any(np.bitwise_and(f[0], f[-1])):
                        return False
                case _:
                    raise ValueError("axis should be 0 (x) or 1 (y)")
        return True
    else:
        return False
-/
def is_percolating {R C : ℕ} (f : Grid R C Bool) (axis : ℤ)
    (periodic : Bool) : Except NpError Bool := do
  let v ← npAnyAxis f axis
  if v.all id then
    if periodic then
      if axis = 0 then
        if ¬ (∃ r, f r 0 = true ∧ f r (Fin.last C) = true) then .ok false
        else .ok true
      else if axis = 1 then
        if ¬ (∃ c, f 0 c = true ∧ f (Fin.last R) c = true) then .ok false
        else .ok true
      else .error (.value_error "axis should be 0 (x) or 1 (y)")
    else .ok true
  else .ok false

/-! ## Connected-component labeling (`scipy.ndimage.label`)

`scipy.ndimage.label` with the default structuring element labels the
maximal 4-connected regions of "on" cells 1..N, 0 for background, the
labels numbered in the order the regions are first met in a raster scan
(row-major).  The search below only consumes the per-label masks
`features == l+1` taken in label order, so the labeling is embedded as
the list of component masks in raster order of their first cell.  A
component is computed as the stable point of neighbourhood dilation
inside the image, reached after at most (R+1)*(C+1) steps. -/

/-- A cell of an (R+1) x (C+1) grid. -/
def Cell (R C : ℕ) : Type := Fin (R + 1) × Fin (C + 1)

instance {R C : ℕ} : DecidableEq (Cell R C) := instDecidableEqProd

instance {R C : ℕ} : Fintype (Cell R C) := instFintypeProd _ _

instance {R C : ℕ} : Nonempty (Cell R C) := ⟨(0, 0)⟩

/-- 4-connectivity: two cells are adjacent when they differ by one in
exactly one coordinate. -/
def adjacent {R C : ℕ} (p q : Cell R C) : Prop :=
  (p.1 = q.1 ∧ (p.2.val + 1 = q.2.val ∨ q.2.val + 1 = p.2.val)) ∨
  (p.2 = q.2 ∧ (p.1.val + 1 = q.1.val ∨ q.1.val + 1 = p.1.val))

instance {R C : ℕ} (p q : Cell R C) : Decidable (adjacent p q) := by
  unfold adjacent; infer_instance

/-- One dilation step of a cell set inside the image: keep every on-cell
that is in the set or 4-adjacent to a cell of the set. -/
def dilate {R C : ℕ} (image : Grid R C Bool) (s : Finset (Cell R C)) :
    Finset (Cell R C) :=
  Finset.univ.filter
    (fun q => image q.1 q.2 = true ∧ (q ∈ s ∨ ∃ p ∈ s, adjacent p q))

/-- Iterated dilation. -/
def iterDilate {R C : ℕ} (image : Grid R C Bool) :
    ℕ → Finset (Cell R C) → Finset (Cell R C)
  | 0, s => s
  | n + 1, s => iterDilate image n (dilate image s)

/-- The 4-connected component of the image containing `p` (empty when
`p` is off): (R+1)*(C+1) dilation steps reach the stable point. -/
def compOf {R C : ℕ} (image : Grid R C Bool) (p : Cell R C) :
    Finset (Cell R C) :=
  iterDilate image ((R + 1) * (C + 1)) (if image p.1 p.2 then {p} else ∅)

/-- Raster (row-major) position of a cell. -/
def rasterIdx {R C : ℕ} (p : Cell R C) : ℕ := p.1.val * (C + 1) + p.2.val

/-- All cells in raster order. -/
def cellList (R C : ℕ) : List (Cell R C) :=
  (List.finRange (R + 1)).flatMap
    (fun r => (List.finRange (C + 1)).map (fun c => (r, c)))

/-- `p` is the first cell of its component in raster order, i.e. the
cell at which `scipy.ndimage.label` starts a new label. -/
def isRep {R C : ℕ} (image : Grid R C Bool) (p : Cell R C) : Bool :=
  image p.1 p.2 && decide (∀ q ∈ compOf image p, rasterIdx p ≤ rasterIdx q)

/-- The component masks `features == l+1` for `l = 0, ..., labels-1`, in
label order (= raster order of the components' first cells). -/
def clusters {R C : ℕ} (image : Grid R C Bool) : List (Finset (Cell R C)) :=
  ((cellList R C).filter (isRep image)).map (compOf image)

/-- A cell set read back as a boolean mask. -/
def maskOf {R C : ℕ} (s : Finset (Cell R C)) : Grid R C Bool :=
  fun r c => decide ((r, c) ∈ s)

/-! ## `percolation_threshold` -/

/-- `landscape.max()` (the grid is nonempty by construction). -/
def fieldMax {R C : ℕ} (landscape : Grid R C ℚ) : ℚ :=
  Finset.univ.sup' Finset.univ_nonempty (fun p : Cell R C => landscape p.1 p.2)

/-- `landscape.min()`. -/
def fieldMin {R C : ℕ} (landscape : Grid R C ℚ) : ℚ :=
  Finset.univ.inf' Finset.univ_nonempty (fun p : Cell R C => landscape p.1 p.2)

/-- `image = (landscape <= mid_point).astype(int)`, read as a mask. -/
def thresholdImage {R C : ℕ} (landscape : Grid R C ℚ) (mid : ℚ) :
    Grid R C Bool :=
  fun r c => decide (landscape r c ≤ mid)

/-- The loop variables of the bisection search. -/
structure PercState (R C : ℕ) where
  upper : ℚ
  lower : ℚ
  best : Option (Finset (Cell R C))
deriving DecidableEq

/-- The `for l in range(labels) ... break / else` scan: the mask of the
first cluster (in label order) that percolates, `none` when no cluster
does; an exception from `is_percolating` propagates. -/
def firstPercolating {R C : ℕ} (cs : List (Finset (Cell R C))) (axis : ℤ)
    (periodic : Bool) : Except NpError (Option (Finset (Cell R C))) :=
  match cs with
  | [] => .ok none
  | c :: rest => do
    let b ← is_percolating (maskOf c) axis periodic
    if b then .ok (some c) else firstPercolating rest axis periodic

/-- One iteration of the bisection loop body. -/
def bisect_step {R C : ℕ} (landscape : Grid R C ℚ) (axis : ℤ)
    (periodic : Bool) (st : PercState R C) : Except NpError (PercState R C) := do
  let mid := (st.upper + st.lower) / 2
  let image := thresholdImage landscape mid
  match ← firstPercolating (clusters image) axis periodic with
  | some f => .ok ⟨mid, st.lower, some f⟩
  | none => .ok ⟨st.upper, mid, st.best⟩

/-- The bisection loop `while threshold_upper - threshold_lower > conv`,
with explicit fuel (in the source the loop runs until the condition
fails; `bisect_fuel` below is enough fuel for that whenever `conv > 0`). -/
def bisect_loop {R C : ℕ} (landscape : Grid R C ℚ) (axis : ℤ) (conv : ℚ)
    (periodic : Bool) : ℕ → PercState R C → Except NpError (PercState R C)
  | 0, st => .ok st
  | n + 1, st =>
    if st.upper - st.lower > conv then do
      let st' ← bisect_step landscape axis periodic st
      bisect_loop landscape axis conv periodic n st'
    else .ok st

/-- Number of executed loop iterations (same recursion as `bisect_loop`;
an iteration that raises counts as one). -/
def bisect_iters {R C : ℕ} (landscape : Grid R C ℚ) (axis : ℤ) (conv : ℚ)
    (periodic : Bool) : ℕ → PercState R C → ℕ
  | 0, _ => 0
  | n + 1, st =>
    if st.upper - st.lower > conv then
      match bisect_step landscape axis periodic st with
      | .ok st' => bisect_iters landscape axis conv periodic n st' + 1
      | .error _ => 1
    else 0

/-- The initial loop state: `threshold_upper = landscape.max()`,
`threshold_lower = landscape.min()`, `percolating_cluster = None`. -/
def initState {R C : ℕ} (landscape : Grid R C ℚ) : PercState R C :=
  ⟨fieldMax landscape, fieldMin landscape, none⟩

/-- Enough fuel for the loop when `conv > 0`: the bracket width halves
every iteration, so `⌈(max-min)/conv⌉` iterations always suffice. -/
def bisect_fuel {R C : ℕ} (landscape : Grid R C ℚ) (conv : ℚ) : ℕ :=
  (Int.ceil ((fieldMax landscape - fieldMin landscape) / conv)).toNat

/-- `percolation_threshold(landscape, axis, conv, periodic)`: run the
bisection and return `(threshold_upper, percolating_cluster)`. -/
def percolation_threshold {R C : ℕ} (landscape : Grid R C ℚ) (axis : ℤ)
    (conv : ℚ) (periodic : Bool) :
    Except NpError (ℚ × Option (Finset (Cell R C))) := do
  let st ← bisect_loop landscape axis conv periodic
    (bisect_fuel landscape conv) (initState landscape)
  .ok (st.upper, st.best)

/-! ## Concrete inputs used by the claims -/

/-- A mask that is all-true in the single row `r0` and false elsewhere. -/
def singleRowMask (R C : ℕ) (r0 : Fin (R + 1)) : Grid R C Bool :=
  fun r _ => decide (r = r0)

/-- The constant-zero 1x1 field, used to instantiate the searched
claims at a concrete input. -/
def constGrid0 : Grid 0 0 ℚ := fun _ _ => 0

/-- The constant 2x2 field of height 5 — a degenerate (constant) field. -/
def constGrid5 : Grid 1 1 ℚ := fun _ _ => 5

/-- The 5x5 field whose row 2 (0-indexed) is all zeros and every other
cell is 10 (the spec's end-to-end scenario). -/
def rowZeroField : Grid 4 4 ℚ := fun r _ => if r = 2 then 0 else 10

/-- The cells of row 2 of a 5x5 grid. -/
def row2Cluster : Finset (Cell 4 4) := Finset.univ.filter (fun p => p.1 = 2)

/-- A 3x3 checkerboard of 0 and 100: the 0-cells sit on the even
parity sites and are pairwise non-adjacent, so no cluster of cells
below any threshold under 100 spans the grid. -/
def checkerboard3 : Grid 2 2 ℚ :=
  fun r c => if (r.val + c.val) % 2 = 0 then 0 else 100

/-! ## Shape lemmas for `is_percolating` -/

lemma anyAxis0_all_iff {R C : ℕ} (f : Grid R C Bool) :
    (anyAxis0 f).all id = true ↔ ∀ c, ∃ r, f r c = true := by
  simp [anyAxis0, List.all_eq_true]

lemma anyAxis1_all_iff {R C : ℕ} (f : Grid R C Bool) :
    (anyAxis1 f).all id = true ↔ ∀ r, ∃ c, f r c = true := by
  simp [anyAxis1, List.all_eq_true]

lemma is_percolating_zero_eq {R C : ℕ} (f : Grid R C Bool) (periodic : Bool) :
    is_percolating f 0 periodic =
      if ∀ c, ∃ r, f r c = true then
        (if periodic then
          .ok (decide (∃ r, f r 0 = true ∧ f r (Fin.last C) = true))
        else .ok true)
      else .ok false := by
  have hb : is_percolating f 0 periodic =
      (if (anyAxis0 f).all id then
        (if periodic then
          (if ¬ (∃ r, f r 0 = true ∧ f r (Fin.last C) = true) then
            (.ok false : Except NpError Bool) else .ok true)
        else .ok true)
      else .ok false) := rfl
  rw [hb]
  by_cases hs : ∀ c, ∃ r, f r c = true
  · rw [if_pos ((anyAxis0_all_iff f).mpr hs), if_pos hs]
    cases periodic
    · simp
    · by_cases hp : ∃ r, f r 0 = true ∧ f r (Fin.last C) = true
      · simp [hp]
      · simp [hp]
  · have hs' : ¬ ((anyAxis0 f).all id = true) := fun h => hs ((anyAxis0_all_iff f).mp h)
    rw [if_neg hs', if_neg hs]

lemma is_percolating_one_eq {R C : ℕ} (f : Grid R C Bool) (periodic : Bool) :
    is_percolating f 1 periodic =
      if ∀ r, ∃ c, f r c = true then
        (if periodic then
          .ok (decide (∃ c, f 0 c = true ∧ f (Fin.last R) c = true))
        else .ok true)
      else .ok false := by
  have hb : is_percolating f 1 periodic =
      (if (anyAxis1 f).all id then
        (if periodic then
          (if ¬ (∃ c, f 0 c = true ∧ f (Fin.last R) c = true) then
            (.ok false : Except NpError Bool) else .ok true)
        else .ok true)
      else .ok false) := rfl
  rw [hb]
  by_cases hs : ∀ r, ∃ c, f r c = true
  · rw [if_pos ((anyAxis1_all_iff f).mpr hs), if_pos hs]
    cases periodic
    · simp
    · by_cases hp : ∃ c, f 0 c = true ∧ f (Fin.last R) c = true
      · simp [hp]
      · simp [hp]
  · have hs' : ¬ ((anyAxis1 f).all id = true) := fun h => hs ((anyAxis1_all_iff f).mp h)
    rw [if_neg hs', if_neg hs]

lemma is_percolating_negone_eq {R C : ℕ} (f : Grid R C Bool) (periodic : Bool) :
    is_percolating f (-1) periodic =
      if (anyAxis1 f).all id then
        (if periodic then .error (.value_error "axis should be 0 (x) or 1 (y)")
        else .ok true)
      else .ok false := rfl

lemma is_percolating_negtwo_eq {R C : ℕ} (f : Grid R C Bool) (periodic : Bool) :
    is_percolating f (-2) periodic =
      if (anyAxis0 f).all id then
        (if periodic then .error (.value_error "axis should be 0 (x) or 1 (y)")
        else .ok true)
      else .ok false := rfl

lemma is_percolating_invalid_eq {R C : ℕ} (f : Grid R C Bool) {axis : ℤ}
    (h0 : ¬ (axis = 0 ∨ axis = -2)) (h1 : ¬ (axis = 1 ∨ axis = -1))
    (periodic : Bool) : is_percolating f axis periodic = .error .axis_error := by
  unfold is_percolating npAnyAxis
  rw [if_neg h0, if_neg h1]
  rfl

/-! ## Claims about `is_percolating` -/

/-- C1: for every 2D binary mask (R≥1 rows, C≥1 columns) and every axis
in {0,1}, `is_percolating` with `periodic=False` returns True iff the
logical-OR reduction of the mask along that axis is all-true (for
axis=0: every column contains an on cell; for axis=1: every row does);
otherwise it returns False. -/
theorem claim_C1_nonperiodic_spanning :
    ∀ (R C : ℕ) (f : Grid R C Bool),
      is_percolating f 0 false = .ok (decide (∀ c, ∃ r, f r c = true)) ∧
      is_percolating f 1 false = .ok (decide (∀ r, ∃ c, f r c = true)) := by
  intro R C f
  constructor
  · rw [is_percolating_zero_eq]
    by_cases hs : ∀ c, ∃ r, f r c = true
    · simp [hs]
    · simp [hs]
  · rw [is_percolating_one_eq]
    by_cases hs : ∀ r, ∃ c, f r c = true
    · simp [hs]
    · simp [hs]

/-- C2: for every spanning mask and axis in {0,1}, `is_percolating` with
`periodic=True` returns True iff the element-wise AND of the two
boundary slices along the tested axis is non-empty (axis=0 compares
column 0 with column -1, axis=1 compares row 0 with row -1), and
returns False when that AND is all-false. -/
theorem claim_C2_periodic_boundary :
    ∀ (R C : ℕ) (f : Grid R C Bool),
      ((∀ c, ∃ r, f r c = true) →
        is_percolating f 0 true =
          .ok (decide (∃ r, f r 0 = true ∧ f r (Fin.last C) = true))) ∧
      ((∀ r, ∃ c, f r c = true) →
        is_percolating f 1 true =
          .ok (decide (∃ c, f 0 c = true ∧ f (Fin.last R) c = true))) := by
  intro R C f
  constructor
  · intro hs
    rw [is_percolating_zero_eq, if_pos hs]
    rfl
  · intro hs
    rw [is_percolating_one_eq, if_pos hs]
    rfl

/-- Witness for C2 at the all-true 1x1 mask: it spans, the boundary
slices AND to an on cell, and the call returns True. -/
theorem claim_C2_periodic_boundary_witness :
    is_percolating (fun _ _ => true : Grid 0 0 Bool) 0 true = .ok true :=
  ((claim_C2_periodic_boundary 0 0 (fun _ _ => true)).1 (by decide)).trans (by decide)

/-- C4 counterexample: a `periodic=True` call with an axis that is
neither 0 nor 1 (axis = -1, a valid numpy reduction axis) on a
non-spanning mask returns False instead of failing with the
InvalidArgument error the claim demands. -/
theorem claim_C4_counterexample :
    is_percolating (fun _ _ => false : Grid 0 0 Bool) (-1) true = .ok false ∧
    ¬ ((-1 : ℤ) = 0 ∨ (-1 : ℤ) = 1) := by
  constructor
  · decide
  · decide

/-- C4 amended: with `periodic=True`, the ValueError "axis should be 0
(x) or 1 (y)" is raised only when the reduction along `axis` succeeds
(axis ∈ {-1,-2}, the valid numpy axes other than 0 and 1) and the
reduced vector is all-true; for an axis that is not a valid 2-D
reduction axis numpy's axis error is raised first, and for a
non-spanning mask the call returns False without failing.  With
`periodic=False` this ValueError is never raised. -/
theorem claim_C4_amended_error_conditions :
    ∀ (R C : ℕ) (f : Grid R C Bool),
      ((∀ r, ∃ c, f r c = true) →
        is_percolating f (-1) true =
          .error (.value_error "axis should be 0 (x) or 1 (y)")) ∧
      ((∀ c, ∃ r, f r c = true) →
        is_percolating f (-2) true =
          .error (.value_error "axis should be 0 (x) or 1 (y)")) ∧
      (∀ axis : ℤ, ¬ (axis = 0 ∨ axis = 1 ∨ axis = -1 ∨ axis = -2) →
        is_percolating f axis true = .error .axis_error) ∧
      (∀ (axis : ℤ) (msg : String),
        is_percolating f axis false ≠ .error (.value_error msg)) := by
  intro R C f
  refine ⟨?_, ?_, ?_, ?_⟩
  · intro hs
    rw [is_percolating_negone_eq, if_pos ((anyAxis1_all_iff f).mpr hs)]
    rfl
  · intro hs
    rw [is_percolating_negtwo_eq, if_pos ((anyAxis0_all_iff f).mpr hs)]
    rfl
  · intro axis h
    push_neg at h
    exact is_percolating_invalid_eq f
      (by push_neg; exact ⟨h.1, h.2.2.2⟩) (by push_neg; exact ⟨h.2.1, h.2.2.1⟩) true
  · intro axis msg h
    by_cases h0 : axis = 0 ∨ axis = -2
    · rcases h0 with h0 | h0 <;> subst h0
      · rw [is_percolating_zero_eq] at h
        split_ifs at h <;> simp_all
      · rw [is_percolating_negtwo_eq] at h
        split_ifs at h <;> simp_all
    · by_cases h1 : axis = 1 ∨ axis = -1
      · rcases h1 with h1 | h1 <;> subst h1
        · rw [is_percolating_one_eq] at h
          split_ifs at h <;> simp_all
        · rw [is_percolating_negone_eq] at h
          split_ifs at h <;> simp_all
      · rw [is_percolating_invalid_eq f h0 h1] at h
        simp_all

/-- Witness for C4 amended at the all-true 1x1 mask: the spanning
reduction along axis=-1 succeeds, so the periodic branch raises the
ValueError. -/
theorem claim_C4_amended_error_conditions_witness :
    is_percolating (fun _ _ => true : Grid 0 0 Bool) (-1) true =
      .error (.value_error "axis should be 0 (x) or 1 (y)") :=
  (claim_C4_amended_error_conditions 0 0 (fun _ _ => true)).1 (by decide)

/-- C7 counterexample: for the 3x3 mask whose middle row (row 1) is
all-true, `is_percolating` with axis=0 and `periodic=True` returns
True, although the row is neither the top row nor the bottom row — the
periodic check for axis=0 compares the first and last columns, not the
first and last rows, so it does not fail. -/
theorem claim_C7_counterexample :
    is_percolating (singleRowMask 2 2 1) 0 true = .ok true ∧
    (1 : Fin 3) ≠ 0 ∧ (1 : Fin 3) ≠ Fin.last 2 := by
  constructor
  · decide
  · decide

/-- C7 amended: for every mask that is all-true in a single full row
and false elsewhere, `is_percolating(mask, axis=0)` returns True, and
with `periodic=True` and axis=0 it also returns True for every position
of the row: the axis=0 periodic check compares column 0 with column -1,
and the full row is on in both boundary columns. -/
theorem claim_C7_amended_single_row :
    ∀ (R C : ℕ) (r0 : Fin (R + 1)),
      is_percolating (singleRowMask R C r0) 0 false = .ok true ∧
      is_percolating (singleRowMask R C r0) 0 true = .ok true := by
  intro R C r0
  have hs : ∀ c : Fin (C + 1), ∃ r, singleRowMask R C r0 r c = true :=
    fun c => ⟨r0, by simp [singleRowMask]⟩
  constructor
  · rw [is_percolating_zero_eq, if_pos hs]
    simp
  · rw [is_percolating_zero_eq, if_pos hs]
    simp only [if_pos]
    have hb : ∃ r, singleRowMask R C r0 r 0 = true ∧
        singleRowMask R C r0 r (Fin.last C) = true :=
      ⟨r0, by simp [singleRowMask], by simp [singleRowMask]⟩
    simp [hb]

/-! ## Structural lemmas for the bisection search -/

lemma fieldMin_le_fieldMax {R C : ℕ} (l : Grid R C ℚ) :
    fieldMin l ≤ fieldMax l := by
  unfold fieldMin fieldMax
  exact le_trans
    (Finset.inf'_le (fun p : Cell R C => l p.1 p.2) (Finset.mem_univ (0, 0)))
    (Finset.le_sup' (fun p : Cell R C => l p.1 p.2) (Finset.mem_univ (0, 0)))

lemma firstPercolating_cons_eq {R C : ℕ} (c : Finset (Cell R C))
    (rest : List (Finset (Cell R C))) (axis : ℤ) (periodic : Bool) :
    firstPercolating (c :: rest) axis periodic =
      Except.bind (is_percolating (maskOf c) axis periodic)
        (fun b => if b then .ok (some c) else firstPercolating rest axis periodic) :=
  rfl

lemma is_percolating_axis01_ok {R C : ℕ} (f : Grid R C Bool) {axis : ℤ}
    (haxis : axis = 0 ∨ axis = 1) (periodic : Bool) :
    ∃ b, is_percolating f axis periodic = .ok b := by
  rcases haxis with h | h <;> subst h
  · rw [is_percolating_zero_eq]
    split_ifs <;> exact ⟨_, rfl⟩
  · rw [is_percolating_one_eq]
    split_ifs <;> exact ⟨_, rfl⟩

lemma firstPercolating_axis01_ok {R C : ℕ} (cs : List (Finset (Cell R C)))
    {axis : ℤ} (haxis : axis = 0 ∨ axis = 1) (periodic : Bool) :
    ∃ o, firstPercolating cs axis periodic = .ok o := by
  induction cs with
  | nil => exact ⟨none, rfl⟩
  | cons c rest ih =>
    rw [firstPercolating_cons_eq]
    obtain ⟨b, hb⟩ := is_percolating_axis01_ok (maskOf c) haxis periodic
    rw [hb]
    cases b
    · exact ih
    · exact ⟨some c, rfl⟩

lemma firstPercolating_some {R C : ℕ} {cs : List (Finset (Cell R C))}
    {axis : ℤ} {periodic : Bool} {f : Finset (Cell R C)}
    (h : firstPercolating cs axis periodic = .ok (some f)) :
    f ∈ cs ∧ is_percolating (maskOf f) axis periodic = .ok true := by
  induction cs with
  | nil => exact absurd (Except.ok.inj h) (by simp)
  | cons c rest ih =>
    rw [firstPercolating_cons_eq] at h
    cases hip : is_percolating (maskOf c) axis periodic with
    | error e => rw [hip] at h; exact Except.noConfusion h
    | ok b =>
      rw [hip] at h
      cases b with
      | false =>
        obtain ⟨hmem, hperc⟩ := ih h
        exact ⟨List.mem_cons_of_mem c hmem, hperc⟩
      | true =>
        have hf : f = c := (Option.some.inj (Except.ok.inj h)).symm
        rw [hf]
        exact ⟨List.mem_cons_self c rest, hip⟩

lemma bisect_step_eq {R C : ℕ} (l : Grid R C ℚ) (axis : ℤ) (periodic : Bool)
    (st : PercState R C) :
    bisect_step l axis periodic st =
      Except.bind
        (firstPercolating
          (clusters (thresholdImage l ((st.upper + st.lower) / 2))) axis periodic)
        (fun o => match o with
          | some f => .ok ⟨(st.upper + st.lower) / 2, st.lower, some f⟩
          | none => .ok ⟨st.upper, (st.upper + st.lower) / 2, st.best⟩) :=
  rfl

lemma bisect_step_axis01_ok {R C : ℕ} (l : Grid R C ℚ) {axis : ℤ}
    (haxis : axis = 0 ∨ axis = 1) (periodic : Bool) (st : PercState R C) :
    ∃ st', bisect_step l axis periodic st = .ok st' := by
  rw [bisect_step_eq]
  obtain ⟨o, ho⟩ := firstPercolating_axis01_ok
    (clusters (thresholdImage l ((st.upper + st.lower) / 2))) haxis periodic
  rw [ho]
  cases o
  · exact ⟨_, rfl⟩
  · exact ⟨_, rfl⟩

lemma bisect_step_halves {R C : ℕ} {l : Grid R C ℚ} {axis : ℤ}
    {periodic : Bool} {st st' : PercState R C}
    (h : bisect_step l axis periodic st = .ok st') :
    st'.upper - st'.lower = (st.upper - st.lower) / 2 := by
  rw [bisect_step_eq] at h
  cases hfp : firstPercolating
      (clusters (thresholdImage l ((st.upper + st.lower) / 2))) axis periodic with
  | error e => rw [hfp] at h; exact Except.noConfusion h
  | ok o =>
    rw [hfp] at h
    cases o with
    | some f =>
      rw [← Except.ok.inj h]
      show (st.upper + st.lower) / 2 - st.lower = (st.upper - st.lower) / 2
      ring
    | none =>
      rw [← Except.ok.inj h]
      show st.upper - (st.upper + st.lower) / 2 = (st.upper - st.lower) / 2
      ring

lemma bisect_loop_succ {R C : ℕ} (l : Grid R C ℚ) (axis : ℤ) (conv : ℚ)
    (periodic : Bool) (n : ℕ) (st : PercState R C) :
    bisect_loop l axis conv periodic (n + 1) st =
      if st.upper - st.lower > conv then
        Except.bind (bisect_step l axis periodic st)
          (bisect_loop l axis conv periodic n)
      else .ok st :=
  rfl

lemma bisect_loop_invariant {R C : ℕ} {l : Grid R C ℚ} {axis : ℤ} {conv : ℚ}
    {periodic : Bool} (P : PercState R C → Prop)
    (hstep : ∀ st st', conv < st.upper - st.lower →
      bisect_step l axis periodic st = .ok st' → P st → P st') :
    ∀ n (st st' : PercState R C),
      bisect_loop l axis conv periodic n st = .ok st' → P st → P st' := by
  intro n
  induction n with
  | zero =>
    intro st st' h hP
    exact (Except.ok.inj h) ▸ hP
  | succ n ih =>
    intro st st' h hP
    rw [bisect_loop_succ] at h
    by_cases hc : st.upper - st.lower > conv
    · rw [if_pos hc] at h
      cases hs : bisect_step l axis periodic st with
      | error e => rw [hs] at h; exact Except.noConfusion h
      | ok st₁ =>
        rw [hs] at h
        exact ih st₁ st' h (hstep st st₁ hc hs hP)
    · rw [if_neg hc] at h
      exact (Except.ok.inj h) ▸ hP

lemma bisect_loop_axis01_ok {R C : ℕ} (l : Grid R C ℚ) {axis : ℤ} (conv : ℚ)
    (haxis : axis = 0 ∨ axis = 1) (periodic : Bool) :
    ∀ n (st : PercState R C),
      ∃ st', bisect_loop l axis conv periodic n st = .ok st' := by
  intro n
  induction n with
  | zero => exact fun st => ⟨st, rfl⟩
  | succ n ih =>
    intro st
    rw [bisect_loop_succ]
    by_cases hc : st.upper - st.lower > conv
    · rw [if_pos hc]
      obtain ⟨st₁, hs⟩ := bisect_step_axis01_ok l haxis periodic st
      rw [hs]
      exact ih st₁
    · rw [if_neg hc]
      exact ⟨st, rfl⟩

lemma bisect_loop_exit {R C : ℕ} {l : Grid R C ℚ} {axis : ℤ} {conv : ℚ}
    {periodic : Bool} (hconv : 0 < conv) :
    ∀ n (st st' : PercState R C), st.upper - st.lower ≤ conv * 2 ^ n →
      bisect_loop l axis conv periodic n st = .ok st' →
      st'.upper - st'.lower ≤ conv := by
  intro n
  induction n with
  | zero =>
    intro st st' hw h
    rw [← Except.ok.inj h]
    simpa using hw
  | succ n ih =>
    intro st st' hw h
    rw [bisect_loop_succ] at h
    by_cases hc : st.upper - st.lower > conv
    · rw [if_pos hc] at h
      cases hs : bisect_step l axis periodic st with
      | error e => rw [hs] at h; exact Except.noConfusion h
      | ok st₁ =>
        rw [hs] at h
        refine ih st₁ st' ?_ h
        rw [bisect_step_halves hs]
        rw [pow_succ] at hw
        linarith
    · rw [if_neg hc] at h
      rw [← Except.ok.inj h]
      linarith [not_lt.mp hc]

lemma bisect_fuel_sufficient {R C : ℕ} (l : Grid R C ℚ) {conv : ℚ}
    (hconv : 0 < conv) :
    fieldMax l - fieldMin l ≤ conv * 2 ^ bisect_fuel l conv := by
  set w : ℚ := fieldMax l - fieldMin l with hw
  have hw0 : 0 ≤ w := by
    have := fieldMin_le_fieldMax l
    linarith
  have hx0 : 0 ≤ w / conv := div_nonneg hw0 (le_of_lt hconv)
  have hceil : w / conv ≤ ((bisect_fuel l conv : ℕ) : ℚ) := by
    rw [bisect_fuel, ← hw]
    have h1 : w / conv ≤ ((Int.ceil (w / conv) : ℤ) : ℚ) := Int.le_ceil _
    have h2 : (0 : ℤ) ≤ Int.ceil (w / conv) := Int.ceil_nonneg hx0
    rwa [← Int.toNat_of_nonneg h2, Int.cast_natCast] at h1
  have hpow : ((bisect_fuel l conv : ℕ) : ℚ) ≤ 2 ^ bisect_fuel l conv := by
    have := Nat.lt_two_pow (bisect_fuel l conv)
    have h2 : ((bisect_fuel l conv : ℕ) : ℚ) < ((2 ^ bisect_fuel l conv : ℕ) : ℚ) := by
      exact_mod_cast this
    rw [Nat.cast_pow] at h2
    exact le_of_lt (by exact_mod_cast h2)
  have : w / conv ≤ 2 ^ bisect_fuel l conv := le_trans hceil hpow
  calc w = (w / conv) * conv := by field_simp
  _ ≤ (2 ^ bisect_fuel l conv) * conv := by
      exact mul_le_mul_of_nonneg_right this (le_of_lt hconv)
  _ = conv * 2 ^ bisect_fuel l conv := by ring

lemma percolation_threshold_eq {R C : ℕ} (l : Grid R C ℚ) (axis : ℤ)
    (conv : ℚ) (periodic : Bool) :
    percolation_threshold l axis conv periodic =
      Except.bind
        (bisect_loop l axis conv periodic (bisect_fuel l conv) (initState l))
        (fun st => .ok (st.upper, st.best)) :=
  rfl

lemma bisect_step_bracket {R C : ℕ} {l : Grid R C ℚ} {axis : ℤ}
    {periodic : Bool} {st st' : PercState R C}
    (h : bisect_step l axis periodic st = .ok st')
    (h1 : fieldMin l ≤ st.lower) (h2 : st.lower ≤ st.upper)
    (h3 : st.upper ≤ fieldMax l) :
    fieldMin l ≤ st'.lower ∧ st'.lower ≤ st'.upper ∧ st'.upper ≤ fieldMax l := by
  rw [bisect_step_eq] at h
  cases hfp : firstPercolating
      (clusters (thresholdImage l ((st.upper + st.lower) / 2))) axis periodic with
  | error e => rw [hfp] at h; exact Except.noConfusion h
  | ok o =>
    rw [hfp] at h
    cases o with
    | some f =>
      rw [← Except.ok.inj h]
      refine ⟨h1, ?_, ?_⟩
      · show st.lower ≤ (st.upper + st.lower) / 2
        linarith
      · show (st.upper + st.lower) / 2 ≤ fieldMax l
        linarith
    | none =>
      rw [← Except.ok.inj h]
      refine ⟨?_, ?_, h3⟩
      · show fieldMin l ≤ (st.upper + st.lower) / 2
        linarith
      · show (st.upper + st.lower) / 2 ≤ st.upper
        linarith

lemma bisect_step_best {R C : ℕ} {l : Grid R C ℚ} {axis : ℤ}
    {periodic : Bool} {conv : ℚ} {st st' : PercState R C}
    (hconv : 0 < conv) (hcond : conv < st.upper - st.lower)
    (h : bisect_step l axis periodic st = .ok st')
    (hP : st.upper ≤ fieldMax l ∧
      (st.best = none → st.upper = fieldMax l) ∧
      (∀ s, st.best = some s →
        is_percolating (maskOf s) axis periodic = .ok true ∧
        st.upper < fieldMax l)) :
    st'.upper ≤ fieldMax l ∧
      (st'.best = none → st'.upper = fieldMax l) ∧
      (∀ s, st'.best = some s →
        is_percolating (maskOf s) axis periodic = .ok true ∧
        st'.upper < fieldMax l) := by
  have hmid : (st.upper + st.lower) / 2 < st.upper := by linarith
  rw [bisect_step_eq] at h
  cases hfp : firstPercolating
      (clusters (thresholdImage l ((st.upper + st.lower) / 2))) axis periodic with
  | error e => rw [hfp] at h; exact Except.noConfusion h
  | ok o =>
    rw [hfp] at h
    cases o with
    | some f =>
      rw [← Except.ok.inj h]
      refine ⟨?_, ?_, ?_⟩
      · show (st.upper + st.lower) / 2 ≤ fieldMax l
        linarith [hP.1]
      · intro hn
        exact Option.noConfusion hn
      · intro s hs
        have hf : s = f := Option.some.inj hs.symm
        constructor
        · rw [hf]
          exact (firstPercolating_some hfp).2
        · show (st.upper + st.lower) / 2 < fieldMax l
          linarith [hP.1]
    | none =>
      rw [← Except.ok.inj h]
      exact hP

lemma firstPercolating_none {R C : ℕ} {cs : List (Finset (Cell R C))}
    {axis : ℤ} {periodic : Bool} (haxis : axis = 0 ∨ axis = 1)
    (hno : ∀ s ∈ cs, is_percolating (maskOf s) axis periodic ≠ .ok true) :
    firstPercolating cs axis periodic = .ok none := by
  induction cs with
  | nil => rfl
  | cons c rest ih =>
    rw [firstPercolating_cons_eq]
    obtain ⟨b, hb⟩ := is_percolating_axis01_ok (maskOf c) haxis periodic
    rw [hb]
    cases b
    · show firstPercolating rest axis periodic = .ok none
      exact ih (fun s hs => hno s (List.mem_cons_of_mem c hs))
    · exact absurd hb (hno c (List.mem_cons_self c rest))

lemma bisect_step_none {R C : ℕ} {l : Grid R C ℚ} {axis : ℤ}
    {periodic : Bool} (haxis : axis = 0 ∨ axis = 1)
    (hno : ∀ (q : ℚ), q < fieldMax l → ∀ (s : Finset (Cell R C)),
      s ∈ clusters (thresholdImage l q) →
      is_percolating (maskOf s) axis periodic ≠ .ok true)
    (st : PercState R C) (hmid : (st.upper + st.lower) / 2 < fieldMax l) :
    bisect_step l axis periodic st =
      .ok ⟨st.upper, (st.upper + st.lower) / 2, st.best⟩ := by
  have hf := firstPercolating_none haxis
    (fun s hs => hno ((st.upper + st.lower) / 2) hmid s hs)
  rw [bisect_step_eq, hf]
  rfl

lemma clusters_mem_isRep {R C : ℕ} {image : Grid R C Bool}
    {s : Finset (Cell R C)} (hs : s ∈ clusters image) :
    ∃ p, isRep image p = true ∧ s = compOf image p := by
  unfold clusters at hs
  obtain ⟨p, hp, hps⟩ := List.mem_map.mp hs
  exact ⟨p, (List.mem_filter.mp hp).2, hps.symm⟩

lemma bisect_iters_succ {R C : ℕ} (l : Grid R C ℚ) (axis : ℤ) (conv : ℚ)
    (periodic : Bool) (n : ℕ) (st : PercState R C) :
    bisect_iters l axis conv periodic (n + 1) st =
      if st.upper - st.lower > conv then
        (match bisect_step l axis periodic st with
          | .ok st' => bisect_iters l axis conv periodic n st' + 1
          | .error _ => 1)
      else 0 :=
  rfl

/-! ## Claims about `percolation_threshold` -/

/-- C3: for every field and axis in {0,1}, if `conv > 0` then the
bisection terminates (the loop's exit condition is reached within the
provided fuel, and no exception occurs); at termination the bracket
satisfies `upper - lower ≤ conv` and the function returns the pair
`(upper, best_cluster)`; moreover every loop iteration halves the
bracket width exactly. -/
theorem claim_C3_termination_and_halving :
    ∀ (R C : ℕ) (landscape : Grid R C ℚ) (axis : ℤ) (conv : ℚ)
      (periodic : Bool),
      0 < conv → (axis = 0 ∨ axis = 1) →
      (∀ st st' : PercState R C,
        bisect_step landscape axis periodic st = .ok st' →
        st'.upper - st'.lower = (st.upper - st.lower) / 2) ∧
      ∃ st' : PercState R C,
        bisect_loop landscape axis conv periodic
          (bisect_fuel landscape conv) (initState landscape) = .ok st' ∧
        st'.upper - st'.lower ≤ conv ∧
        percolation_threshold landscape axis conv periodic =
          .ok (st'.upper, st'.best) := by
  intro R C l axis conv p hconv haxis
  refine ⟨fun st st' h => bisect_step_halves h, ?_⟩
  obtain ⟨st', hloop⟩ :=
    bisect_loop_axis01_ok l conv haxis p (bisect_fuel l conv) (initState l)
  refine ⟨st', hloop, ?_, ?_⟩
  · refine bisect_loop_exit hconv _ _ _ ?_ hloop
    show fieldMax l - fieldMin l ≤ conv * 2 ^ bisect_fuel l conv
    exact bisect_fuel_sufficient l hconv
  · rw [percolation_threshold_eq, hloop]
    rfl

/-- Witness for C3 at the 1x1 zero field with `conv = 1`, `axis = 0`:
one concrete accepted step halves the bracket width. -/
theorem claim_C3_termination_and_halving_witness :
    (0 : ℚ) < 1 ∧ (2 : ℚ) - 1 = (3 - 1) / 2 :=
  ⟨by norm_num,
    (claim_C3_termination_and_halving 0 0 constGrid0 0 1 false (by norm_num)
      (Or.inl rfl)).1 ⟨3, 1, none⟩ ⟨2, 1, some {((0 : Fin 1), (0 : Fin 1))}⟩
      (by with_unfolding_all decide)⟩

/-- C8: during the whole search the threshold bracket stays inside the
field's extremes: an in-invariant state has its midpoint between
`lower` and `upper` and inside `[min(field), max(field)]`, one loop
step preserves `min(field) ≤ lower ≤ upper ≤ max(field)`, and the
returned threshold lies in `[min(field), max(field)]`. -/
theorem claim_C8_bracket_stays_in_field_range :
    ∀ (R C : ℕ) (landscape : Grid R C ℚ) (axis : ℤ) (conv : ℚ)
      (periodic : Bool),
      (∀ st st' : PercState R C,
        fieldMin landscape ≤ st.lower → st.lower ≤ st.upper →
        st.upper ≤ fieldMax landscape →
        (st.lower ≤ (st.upper + st.lower) / 2 ∧
         (st.upper + st.lower) / 2 ≤ st.upper ∧
         fieldMin landscape ≤ (st.upper + st.lower) / 2 ∧
         (st.upper + st.lower) / 2 ≤ fieldMax landscape) ∧
        (bisect_step landscape axis periodic st = .ok st' →
          fieldMin landscape ≤ st'.lower ∧ st'.lower ≤ st'.upper ∧
          st'.upper ≤ fieldMax landscape)) ∧
      (∀ (t : ℚ) (m : Option (Finset (Cell R C))),
        percolation_threshold landscape axis conv periodic = .ok (t, m) →
        fieldMin landscape ≤ t ∧ t ≤ fieldMax landscape) := by
  intro R C l axis conv p
  constructor
  · intro st st' h1 h2 h3
    constructor
    · refine ⟨by linarith, by linarith, by linarith, by linarith⟩
    · intro hs
      exact bisect_step_bracket hs h1 h2 h3
  · intro t m h
    rw [percolation_threshold_eq] at h
    cases hloop : bisect_loop l axis conv p (bisect_fuel l conv) (initState l) with
    | error e => rw [hloop] at h; exact Except.noConfusion h
    | ok st' =>
      rw [hloop] at h
      have hpair : (st'.upper, st'.best) = (t, m) := Except.ok.inj h
      have hP : fieldMin l ≤ st'.lower ∧ st'.lower ≤ st'.upper ∧
          st'.upper ≤ fieldMax l :=
        bisect_loop_invariant
          (fun st => fieldMin l ≤ st.lower ∧ st.lower ≤ st.upper ∧
            st.upper ≤ fieldMax l)
          (fun st st₁ _ hs hp => bisect_step_bracket hs hp.1 hp.2.1 hp.2.2)
          _ _ _ hloop ⟨le_refl _, fieldMin_le_fieldMax l, le_refl _⟩
      cases hpair
      exact ⟨le_trans hP.1 hP.2.1, hP.2.2⟩

/-- Witness for C8 at the 1x1 zero field with `conv = 1`, `axis = 0`:
the returned threshold 0 lies between the field's min and max. -/
theorem claim_C8_bracket_stays_in_field_range_witness :
    fieldMin constGrid0 ≤ (0 : ℚ) ∧ (0 : ℚ) ≤ fieldMax constGrid0 :=
  (claim_C8_bracket_stays_in_field_range 0 0 constGrid0 0 1 false).2 0 none
    (by with_unfolding_all decide)

/-- C10 (implicit): whenever `percolation_threshold` returns without an
exception and `conv > 0`, every returned non-None cluster mask
satisfies `is_percolating` with the same axis and periodic arguments,
and the returned mask is None exactly when the returned threshold
equals `max(field)`. -/
theorem claim_C10_returned_mask_percolates :
    ∀ (R C : ℕ) (landscape : Grid R C ℚ) (axis : ℤ) (conv : ℚ)
      (periodic : Bool) (t : ℚ) (m : Option (Finset (Cell R C))),
      0 < conv →
      percolation_threshold landscape axis conv periodic = .ok (t, m) →
      (∀ s, m = some s →
        is_percolating (maskOf s) axis periodic = .ok true) ∧
      (m = none ↔ t = fieldMax landscape) := by
  intro R C l axis conv p t m hconv h
  rw [percolation_threshold_eq] at h
  cases hloop : bisect_loop l axis conv p (bisect_fuel l conv) (initState l) with
  | error e => rw [hloop] at h; exact Except.noConfusion h
  | ok st' =>
    rw [hloop] at h
    have hpair : (st'.upper, st'.best) = (t, m) := Except.ok.inj h
    have hP : st'.upper ≤ fieldMax l ∧
        (st'.best = none → st'.upper = fieldMax l) ∧
        (∀ s, st'.best = some s →
          is_percolating (maskOf s) axis p = .ok true ∧
          st'.upper < fieldMax l) :=
      bisect_loop_invariant
        (fun st => st.upper ≤ fieldMax l ∧
          (st.best = none → st.upper = fieldMax l) ∧
          (∀ s, st.best = some s →
            is_percolating (maskOf s) axis p = .ok true ∧
            st.upper < fieldMax l))
        (fun st st₁ hc hs hp => bisect_step_best hconv hc hs hp)
        _ _ _ hloop
        ⟨le_refl _, fun _ => rfl, fun s hs => Option.noConfusion hs⟩
    cases hpair
    refine ⟨fun s hs => (hP.2.2 s hs).1, ?_, ?_⟩
    · exact fun hn => hP.2.1 hn
    · intro ht
      cases hm : st'.best with
      | none => rfl
      | some s => exact absurd ht (ne_of_lt (hP.2.2 s hm).2)

/-- Witness for C10 at the 1x1 zero field with `conv = 1`, `axis = 0`:
the returned mask is None and the returned threshold is the field max. -/
theorem claim_C10_returned_mask_percolates_witness :
    (none : Option (Finset (Cell 0 0))) = none ↔ (0 : ℚ) = fieldMax constGrid0 :=
  (claim_C10_returned_mask_percolates 0 0 constGrid0 0 1 false 0 none
    (by norm_num) (by with_unfolding_all decide)).2

/-- C9 amended: for every field, axis in {0,1} and `conv > 0`, if no
cluster of a thresholded image at a threshold strictly below
`max(field)` percolates — every midpoint the loop ever tests is
strictly below `max(field)` — then the search returns
`(max(field), None)`, i.e. `best_cluster` stays absent; and the
bisection loop executes at least one iteration exactly when
`max(field) - min(field) > conv` (in particular, for a constant field
the loop body never runs, as `upper - lower = 0 ≤ conv` at entry). -/
theorem claim_C9_amended_degenerate_fields :
    ∀ (R C : ℕ) (landscape : Grid R C ℚ) (axis : ℤ) (conv : ℚ)
      (periodic : Bool),
      0 < conv → (axis = 0 ∨ axis = 1) →
      ((∀ (q : ℚ), q < fieldMax landscape → ∀ (s : Finset (Cell R C)),
          s ∈ clusters (thresholdImage landscape q) →
          is_percolating (maskOf s) axis periodic ≠ .ok true) →
        percolation_threshold landscape axis conv periodic =
          .ok (fieldMax landscape, none)) ∧
      (fieldMax landscape - fieldMin landscape ≤ conv →
        bisect_iters landscape axis conv periodic
          (bisect_fuel landscape conv) (initState landscape) = 0) ∧
      (conv < fieldMax landscape - fieldMin landscape →
        1 ≤ bisect_iters landscape axis conv periodic
          (bisect_fuel landscape conv) (initState landscape)) := by
  intro R C l axis conv p hconv haxis
  refine ⟨?_, ?_, ?_⟩
  · intro hno
    obtain ⟨st', hloop⟩ :=
      bisect_loop_axis01_ok l conv haxis p (bisect_fuel l conv) (initState l)
    have hQ : st'.upper = fieldMax l ∧ st'.best = none :=
      bisect_loop_invariant
        (fun st => st.upper = fieldMax l ∧ st.best = none)
        (fun st st₁ hc hs hq => by
          have hmid : (st.upper + st.lower) / 2 < fieldMax l := by
            rw [← hq.1]
            linarith
          rw [bisect_step_none haxis hno st hmid] at hs
          rw [← Except.ok.inj hs]
          exact hq)
        _ _ _ hloop ⟨rfl, rfl⟩
    rw [percolation_threshold_eq, hloop]
    show Except.ok (st'.upper, st'.best) = _
    rw [hQ.1, hQ.2]
  · intro hle
    cases hn : bisect_fuel l conv with
    | zero => rfl
    | succ n =>
      rw [bisect_iters_succ]
      rw [if_neg (by show ¬ (fieldMax l - fieldMin l > conv); exact not_lt.mpr hle)]
  · intro hgt
    have hfuel : 1 ≤ bisect_fuel l conv := by
      rw [bisect_fuel]
      have hpos : (0 : ℚ) < (fieldMax l - fieldMin l) / conv :=
        div_pos (by linarith) hconv
      have h2 : 0 < Int.ceil ((fieldMax l - fieldMin l) / conv) :=
        Int.ceil_pos.mpr hpos
      omega
    obtain ⟨n, hn⟩ : ∃ n, bisect_fuel l conv = n + 1 :=
      ⟨bisect_fuel l conv - 1, by omega⟩
    rw [hn, bisect_iters_succ,
      if_pos (by show fieldMax l - fieldMin l > conv; exact hgt)]
    cases hs : bisect_step l axis p (initState l) with
    | ok st' =>
      show 1 ≤ bisect_iters l axis conv p n st' + 1
      omega
    | error e =>
      exact le_refl 1

/-- Witness for C9 amended at the constant 2x2 field of height 5 with
`conv = 1/100`, `axis = 0`: below the maximum 5 every thresholded
image is all-false, so it has no clusters at all and the no-percolation
hypothesis of the first conjunct holds; the search returns
`(max(field), None)`. -/
theorem claim_C9_amended_degenerate_fields_witness :
    percolation_threshold constGrid5 0 (1/100) false =
      .ok (fieldMax constGrid5, none) :=
  (claim_C9_amended_degenerate_fields 1 1 constGrid5 0 (1/100) false
    (by norm_num) (Or.inl rfl)).1
    (fun q hq s hs => by
      exfalso
      obtain ⟨p, hrep, -⟩ := clusters_mem_isRep hs
      have hq5 : q < 5 := by
        have hmax : fieldMax constGrid5 = 5 := by with_unfolding_all decide
        rwa [hmax] at hq
      have h5 : thresholdImage constGrid5 q p.1 p.2 = false := by
        show decide ((5 : ℚ) ≤ q) = false
        exact decide_eq_false (not_le.mpr hq5)
      unfold isRep at hrep
      rw [h5] at hrep
      simp at hrep)

/-- C9 counterexample: for the constant 2x2 field of height 5 with
`conv = 0.01 > 0`, the bisection loop executes zero iterations — not
"at least one" — because `upper - lower = 0 ≤ conv` already at entry
(the result is still `(5, None)`, with the cluster absent). -/
theorem claim_C9_counterexample :
    bisect_iters constGrid5 0 (1/100) false (bisect_fuel constGrid5 (1/100))
      (initState constGrid5) = 0 ∧
    percolation_threshold constGrid5 0 (1/100) false = .ok (5, none) := by
  constructor
  · with_unfolding_all decide
  · with_unfolding_all decide

set_option maxRecDepth 200000 in
/-- C5 counterexample: on the spec's 5x5 scenario field with `axis = 1`
and `conv = 0.01`, `percolation_threshold` returns `(10, None)` — the
threshold converges to the field maximum 10, not to ≈ 0, and no
cluster mask is returned at all, because the all-zero row 2 spans
every column but not every row, so it never percolates along axis 1. -/
theorem claim_C5_counterexample :
    percolation_threshold rowZeroField 1 (1/100) false = .ok (10, none) ∧
    (none : Option (Finset (Cell 4 4))) ≠ some row2Cluster := by
  constructor
  · with_unfolding_all decide
  · with_unfolding_all decide

set_option maxRecDepth 200000 in
/-- C5 amended: on the 5x5 scenario field the claimed behaviour holds
for `axis = 0` (spanning every column): with `conv = 0.01` the search
returns threshold `5/512 ≈ 0.0098` — within `conv` of the true
threshold 0 — together with the cluster mask marking exactly row 2;
with `axis = 1` it returns `(10, None)`. -/
theorem claim_C5_amended_axis0 :
    percolation_threshold rowZeroField 0 (1/100) false =
      .ok (5/512, some row2Cluster) ∧
    (5/512 : ℚ) ≤ 1/100 := by
  constructor
  · with_unfolding_all decide
  · norm_num

set_option maxRecDepth 200000 in
/-- C6 counterexample: on the 0/100 checkerboard with `axis = 0` and
`conv = 0.01`, `percolation_threshold` does not return the full-grid
cluster mask the claim promises. -/
theorem claim_C6_counterexample :
    percolation_threshold checkerboard3 0 (1/100) false ≠
      .ok (100, some (Finset.univ : Finset (Cell 2 2))) := by
  with_unfolding_all decide

set_option maxRecDepth 200000 in
/-- C6 amended: on the 0/100 checkerboard with `axis = 0` and
`conv = 0.01` the returned threshold is exactly `100 = max(field)`,
but the returned cluster mask is None: the midpoint tested is always
strictly below `max`, where the below-threshold set consists of the
isolated 0-cells only, so no cluster ever percolates and
`best_cluster` is never set — the all-cells cluster at
`threshold = max` is never examined. -/
theorem claim_C6_amended_threshold_max_no_mask :
    percolation_threshold checkerboard3 0 (1/100) false = .ok (100, none) ∧
    (100 : ℚ) = fieldMax checkerboard3 := by
  constructor
  · with_unfolding_all decide
  · with_unfolding_all decide
